import Mathlib

/-!
Verification development for the dns-check-go DNS testing tool.

The Go source (`main.go`) is shallowly embedded here:

* Machine strings are `String`; Go compares strings bytewise over UTF-8,
  which coincides with codepoint-lexicographic order, embedded below as the
  executable `strLt`.
* `time.Duration` values are nanosecond counts.  All durations appearing in
  this program are non-negative measurements bounded far below `2^63`, so
  they are embedded as `ℕ` (as `ℤ` where the Go code mixes in subtraction);
  `int64` wraparound is unreachable in the modelled range and not modelled.
* `float64` arithmetic on success rates and progress appears only as one
  division optionally followed by a multiplication; it is embedded as exact
  rational arithmetic, with `none : Option ℚ` standing for the non-finite
  result (in this program a `0/0 = NaN`, since every zero divisor comes with
  a zero numerator).  Decimal rendering (`%.1f`) is embedded as
  round-to-nearest-ties-to-even of the exact rational value.
* The network exchange performed by `testDNS` is an external collaborator;
  its outcome is an explicit `ExchangeOutcome` input (an oracle), and the
  wall-clock latency measurement is an explicit input as well.
* The worker pool delivers exactly the multiset of per-job results in a
  scheduler-dependent order; theorems therefore quantify over arbitrary
  permutations of the generated job results.  `sort.Slice` guarantees a
  permutation that is sorted by the comparator and is documented as NOT
  stable; that contract is `sortSliceOutput`, while the executable pipeline
  `runDNSTests` instantiates it with one admissible sorting algorithm.
-/

/-! ### Byte-lexicographic string comparison (Go `<` on `string`) -/

/-- Strict lexicographic order on lists of characters, mirroring Go's
bytewise string comparison (on well-formed UTF-8, bytewise order equals
codepoint order). -/
def charListLt : List Char → List Char → Bool
  | _, [] => false
  | [], _ :: _ => true
  | a :: as, b :: bs => if a < b then true else if b < a then false else charListLt as bs

/-- Go's `s1 < s2` on strings. -/
def strLt (a b : String) : Bool := charListLt a.data b.data

theorem charListLt_irrefl : ∀ l : List Char, charListLt l l = false
  | [] => rfl
  | a :: as => by simp [charListLt, charListLt_irrefl as]

theorem charListLt_asymm : ∀ {l m : List Char}, charListLt l m = true → charListLt m l = false
  | _, [], h => by simp [charListLt] at h
  | [], _ :: _, _ => rfl
  | a :: as, b :: bs, h => by
    simp only [charListLt] at h ⊢
    rcases lt_trichotomy a b with hab | hab | hab
    · simp [hab, lt_asymm hab, ne_of_gt hab]
    · subst hab
      simp only [lt_irrefl, if_false] at h ⊢
      exact charListLt_asymm h
    · simp [hab, lt_asymm hab] at h

theorem charListLt_trans : ∀ {l m k : List Char},
    charListLt l m = true → charListLt m k = true → charListLt l k = true
  | _, _, [], _, h2 => by simp [charListLt] at h2
  | _, [], _ :: _, h1, _ => by simp [charListLt] at h1
  | [], _ :: _, _ :: _, _, _ => rfl
  | a :: as, b :: bs, c :: cs, h1, h2 => by
    simp only [charListLt] at h1 h2 ⊢
    rcases lt_trichotomy a b with hab | hab | hab
    · rcases lt_trichotomy b c with hbc | hbc | hbc
      · have hac := lt_trans hab hbc
        simp [hac]
      · subst hbc; simp [hab]
      · simp [hbc, lt_asymm hbc] at h2
    · subst hab
      rcases lt_trichotomy a c with hac | hac | hac
      · simp [hac]
      · subst hac
        simp only [lt_irrefl, if_false] at h1 h2 ⊢
        exact charListLt_trans h1 h2
      · simp [hac, lt_asymm hac] at h2
    · simp [hab, lt_asymm hab] at h1

theorem charListLt_connex : ∀ {l m : List Char},
    charListLt l m = false → charListLt m l = false → l = m
  | [], [], _, _ => rfl
  | [], _ :: _, h1, _ => by simp [charListLt] at h1
  | _ :: _, [], _, h2 => by simp [charListLt] at h2
  | a :: as, b :: bs, h1, h2 => by
    simp only [charListLt] at h1 h2
    rcases lt_trichotomy a b with hab | hab | hab
    · simp [hab] at h1
    · subst hab
      simp only [lt_irrefl, if_false] at h1 h2
      rw [charListLt_connex h1 h2]
    · simp [hab] at h2

theorem strLt_irrefl (a : String) : strLt a a = false := charListLt_irrefl a.data

theorem strLt_asymm {a b : String} (h : strLt a b = true) : strLt b a = false :=
  charListLt_asymm h

theorem strLt_trans {a b c : String} (h1 : strLt a b = true) (h2 : strLt b c = true) :
    strLt a c = true :=
  charListLt_trans h1 h2

theorem strLt_connex {a b : String} (h1 : strLt a b = false) (h2 : strLt b a = false) :
    a = b := by
  cases a with
  | mk da => cases b with
    | mk db => exact congrArg String.mk (charListLt_connex h1 h2)

theorem strLt_trichotomy (a b : String) :
    strLt a b = true ∨ a = b ∨ strLt b a = true := by
  cases h1 : strLt a b with
  | true => exact Or.inl rfl
  | false =>
    cases h2 : strLt b a with
    | true => exact Or.inr (Or.inr rfl)
    | false => exact Or.inr (Or.inl (strLt_connex h1 h2))

/-! ### Data model (`main.go` struct declarations) -/

/-- Embeds `DNSServer` (fields `IP`, `Description`). -/
structure DNSServer where
  ip : String
  description : String
deriving DecidableEq, Inhabited

/-- Embeds `DomainCategory` (fields `Domain`, `Category`). -/
structure DomainCategory where
  domain : String
  category : String
deriving DecidableEq, Inhabited

/-- Embeds `TestResult`.  `responseTime` is the measured latency in
nanoseconds (`time.Duration`).  `ip` is the resolved address, `error` the
failure description; Go zero values are the empty string. -/
structure TestResult where
  server : DNSServer
  domain : String
  category : String
  success : Bool
  responseTime : ℕ
  ip : String
  error : String
deriving DecidableEq, Inhabited

/-- Embeds `CategoryStats`.  `successRate` is the `float64` rate, `none`
standing for a non-finite value (see module docstring). -/
structure CategoryStats where
  totalTests : ℕ
  successfulTests : ℕ
  failedTests : ℕ
  successRate : Option ℚ
deriving DecidableEq, Inhabited

/-- Embeds `Summary`.  The Go `CategoryStats` field is a `map[string]...`
whose iteration order is unspecified; it is embedded as an association list
keyed by the distinct categories in order of first appearance (its content
as a finite map is what all claims are about). -/
structure Summary where
  totalTests : ℕ
  successfulTests : ℕ
  failedTests : ℕ
  successRate : Option ℚ
  averageResponseTime : ℕ
  categoryStats : List (String × CategoryStats)
deriving DecidableEq

/-- Embeds `TestResults`.  The `Timestamp` field is an external wall-clock
read (`time.Now()`) and is not modelled. -/
structure TestResults where
  results : List TestResult
  summary : Summary
deriving DecidableEq

/-! ### The probe function `testDNS` -/

/-- Embeds a DNS resource record as seen by `testDNS`: either an A record
carrying the textual form of its address (`a.A.String()` in Go) or any
other record type. -/
inductive RR where
  | A (addr : String)
  | other
deriving DecidableEq

/-- Embeds the outcome of the external `client.Exchange` call: an error
with its description (`err.Error()`), or a response (`nil` or an answer
section). -/
inductive ExchangeOutcome where
  | err (msg : String)
  | ok (response : Option (List RR))
deriving DecidableEq

/-- Embeds the loop in `testDNS` that scans the answer section for the
first A record. -/
def firstA : List RR → Option String
  | [] => none
  | RR.A addr :: _ => some addr
  | RR.other :: rest => firstA rest

/-- Answer section of an exchange outcome (empty for an error or a `nil`
response). -/
def exchangeAnswers : ExchangeOutcome → List RR
  | ExchangeOutcome.err _ => []
  | ExchangeOutcome.ok none => []
  | ExchangeOutcome.ok (some answers) => answers

/-- Embeds `testDNS` (main.go:1037).  The network exchange and the latency
measurement are external; they enter as the `outcome` and `responseTime`
arguments.  The timeout only parameterises the external call and does not
appear in the result construction. -/
def testDNS (server : DNSServer) (domain : String) (outcome : ExchangeOutcome)
    (responseTime : ℕ) : TestResult :=
  let result : TestResult :=
    { server := server, domain := domain, category := "", success := false,
      responseTime := responseTime, ip := "", error := "" }
  match outcome with
  | ExchangeOutcome.err msg => { result with success := false, error := msg }
  | ExchangeOutcome.ok response =>
    match response with
    | none => { result with success := false, error := "No answer received" }
    | some answers =>
      if answers.length = 0 then
        { result with success := false, error := "No answer received" }
      else
        match firstA answers with
        | some addr => { result with success := true, ip := addr }
        | none => { result with success := false, error := "No A record found in response" }

/-! ### Job generation, worker processing, sorting, aggregation
(`runDNSTests`, main.go:912) -/

/-- Embeds the job-sending goroutine of `runDNSTests`: the cross product of
servers (outer) and domains (inner), in input order. -/
def genJobs (servers : List DNSServer) (domains : List DomainCategory) :
    List (DNSServer × DomainCategory) :=
  servers.flatMap (fun server => domains.map (fun domain => (server, domain)))

/-- Embeds one iteration of the worker loop: run `testDNS` on the job and
stamp the result with the job's category.  `oracle` supplies the external
exchange outcome and measured latency for a (server, domain) probe. -/
def processJob (oracle : DNSServer → String → ExchangeOutcome × ℕ)
    (j : DNSServer × DomainCategory) : TestResult :=
  let r := testDNS j.1 j.2.domain (oracle j.1 j.2.domain).1 (oracle j.1 j.2.domain).2
  { r with category := j.2.category }

/-- Results emitted by the worker pool, one per generated job (listed here
in job order; the pool delivers them in an arbitrary permutation, which
theorems quantify over). -/
def processAll (servers : List DNSServer) (domains : List DomainCategory)
    (oracle : DNSServer → String → ExchangeOutcome × ℕ) : List TestResult :=
  (genJobs servers domains).map (processJob oracle)

/-- Embeds the `less` closure passed to `sort.Slice` (main.go:972): compare
by server IP, then by domain. -/
def resultLess (a b : TestResult) : Bool :=
  if a.server.ip ≠ b.server.ip then strLt a.server.ip b.server.ip
  else strLt a.domain b.domain

/-- Non-strict counterpart of `resultLess`: `a` need not precede `b`. -/
def resultLE (a b : TestResult) : Prop := resultLess b a = false

instance : DecidableRel resultLE := fun a b => by
  unfold resultLE; infer_instance

/-- Contract of `sort.Slice` on the collected results: it reorders the
slice into some permutation that is sorted with respect to the comparator.
Go documents `sort.Slice` as not guaranteed to be stable, so nothing more
is promised about the order of elements equal under the comparator. -/
def sortSliceOutput (l out : List TestResult) : Prop :=
  l.Perm out ∧ out.Pairwise resultLE

/-- One admissible implementation of the `sort.Slice` call, used by the
executable pipeline (`sortSliceOutput_sortResults` shows it meets the
contract). -/
def sortResults (l : List TestResult) : List TestResult :=
  List.insertionSort resultLE l

/-- Embeds `calculateSummary`'s unguarded `float64` divisions: `none` is
the non-finite result of a zero divisor (always `0/0 = NaN` in this
program, since the numerator is a count over a subset of what the divisor
counts). -/
def fdiv (num den : ℕ) : Option ℚ :=
  if den = 0 then none else some ((num : ℚ) / (den : ℚ))

/-- Embeds `calculateSummary` (main.go:1083).  The single pass that counts
successes and accumulates the response-time sum is expressed with
`filter`/`map`/`sum`; grouping by category (`categoryResults`, a Go map
filled in input order) is expressed as filtering per distinct category. -/
def calculateSummary (results : List TestResult) : Summary :=
  let totalTests := results.length
  let successfulTests := (results.filter (fun r => r.success)).length
  let totalResponseTime := ((results.filter (fun r => r.success)).map (fun r => r.responseTime)).sum
  let categoryStats := ((results.map (fun r => r.category)).dedup).map (fun category =>
    let catResults := results.filter (fun r => r.category == category)
    let catTotal := catResults.length
    let catSuccessful := (catResults.filter (fun r => r.success)).length
    (category,
      { totalTests := catTotal
        successfulTests := catSuccessful
        failedTests := catTotal - catSuccessful
        successRate := (fdiv catSuccessful catTotal).map (fun q => q * 100) : CategoryStats }))
  { totalTests := totalTests
    successfulTests := successfulTests
    failedTests := totalTests - successfulTests
    successRate := (fdiv successfulTests totalTests).map (fun q => q * 100)
    averageResponseTime := if 0 < successfulTests then totalResponseTime / successfulTests else 0
    categoryStats := categoryStats }

/-- Embeds the tail of `runDNSTests` on an already-collected result list:
sort with `sort.Slice`, then summarise the sorted slice. -/
def aggregate (collected : List TestResult) : TestResults :=
  let allResults := sortResults collected
  { results := allResults, summary := calculateSummary allResults }

/-- Embeds `runDNSTests` for one completed run: generate the cross-product
jobs, produce one result per job from the probe oracle, aggregate.  The
worker pool's completion order is an arbitrary permutation of job order;
theorems that depend on it take the permuted list explicitly. -/
def runDNSTests (servers : List DNSServer) (domains : List DomainCategory)
    (oracle : DNSServer → String → ExchangeOutcome × ℕ) : TestResults :=
  aggregate (processAll servers domains oracle)

/-! ### Progress monitor (`showProgress`, main.go:989, and
`formatDuration`, main.go:1028) -/

/-- Round `num / den` (for `den > 0`) to the nearest integer, ties to even:
the rounding `fmt` applies for `%.1f`, up to the binary-float
representation error, which is not modelled. -/
def roundHalfEvenDiv (num den : ℤ) : ℤ :=
  let q := Int.fdiv num den
  let r := num - q * den
  if 2 * r < den then q
  else if den < 2 * r then q + 1
  else if q % 2 = 0 then q else q + 1

/-- Render a signed number of tenths as a fixed-point decimal with one
fractional digit (the sign of a negative zero is not modelled; no negative
value reaches this in the program). -/
def fmtTenths (t : ℤ) : String :=
  (if t < 0 then "-" else "") ++ toString (t.natAbs / 10) ++ "." ++ toString (t.natAbs % 10)

/-- Embeds `formatDuration` on a nanosecond count: `%.1fs` below one
minute, otherwise whole minutes (`int(d.Minutes())`) and truncated seconds
modulo 60 (`int(d.Seconds()) % 60`); Go's `int` conversion and `%` are
truncating, hence `Int.tdiv`/`Int.tmod`. -/
def formatDuration (d : ℤ) : String :=
  if d < 60 * 1000000000 then fmtTenths (roundHalfEvenDiv d 100000000) ++ "s"
  else
    let minutes := Int.tdiv d (60 * 1000000000)
    let seconds := Int.tmod (Int.tdiv d 1000000000) 60
    toString minutes ++ "m" ++ toString seconds ++ "s"

/-- Everything one tick of `showProgress` computes and renders. -/
structure ProgressView where
  current : ℕ
  total : ℕ
  progress : Option ℚ
  percentage : Option ℚ
  eta : ℤ
  filled : Option ℕ
  bar : Option String
  elapsedStr : String
  etaStr : String
  percentStr : String
  line : Option String

/-- Bar text: `filled` full blocks then `40 - filled` empty blocks
(`strings.Repeat`, which panics on a negative count). -/
def mkBar (filled : ℕ) : String :=
  String.mk (List.replicate filled '█' ++ List.replicate (40 - filled) '░')

/-- Embeds the body of one `ticker` iteration of `showProgress`
(main.go:997-1023).  `current` is the loaded completion counter, `elapsed`
the nanoseconds since start.  `progress` is the unguarded float division
`current/total` (`none` = NaN when `total = 0`); `percentage` is
`progress * 100`.  The ETA is computed only when `current > 0`, otherwise
the `eta` variable keeps its zero value — and is rendered regardless.
`filled` is `int(progress * 40)`; it and `bar` are `none` when `progress`
is NaN (`int(NaN)` is implementation-defined and feeding it to
`strings.Repeat` panics for a negative count).  `percentStr` is the `%.1f`
rendering of `percentage` (`fmt` prints NaN as `NaN`). -/
def showProgressTick (current total : ℕ) (elapsed : ℕ) : ProgressView :=
  let progress := fdiv current total
  let percentage := progress.map (fun q => q * 100)
  let eta : ℤ :=
    if 0 < current then Int.tdiv (elapsed : ℤ) (current : ℤ) * ((total : ℤ) - (current : ℤ))
    else 0
  let filled : Option ℕ := if total = 0 then none else some (40 * current / total)
  let bar : Option String := filled.map mkBar
  let elapsedStr := formatDuration (elapsed : ℤ)
  let etaStr := formatDuration eta
  let percentStr : String :=
    match progress with
    | none => "NaN"
    | some _ => fmtTenths (roundHalfEvenDiv (1000 * (current : ℤ)) (total : ℤ))
  { current := current
    total := total
    progress := progress
    percentage := percentage
    eta := eta
    filled := filled
    bar := bar
    elapsedStr := elapsedStr
    etaStr := etaStr
    percentStr := percentStr
    line := bar.map (fun b =>
      "[" ++ b ++ "] " ++ toString current ++ "/" ++ toString total ++ " (" ++ percentStr ++
        "%) | Elapsed: " ++ elapsedStr ++ " | ETA: " ++ etaStr) }

/-! ### Order properties of the `sort.Slice` comparator -/

theorem strLt_ne {a b : String} (h : strLt a b = true) : a ≠ b := by
  intro he
  subst he
  rw [strLt_irrefl] at h
  exact Bool.false_ne_true h

theorem resultLess_asymm {a b : TestResult} (h : resultLess a b = true) :
    resultLess b a = false := by
  unfold resultLess at h ⊢
  by_cases hip : a.server.ip = b.server.ip
  · rw [if_neg (by simp [hip])] at h
    rw [if_neg (by simp [hip])]
    exact strLt_asymm h
  · rw [if_pos hip] at h
    rw [if_pos (Ne.symm hip)]
    exact strLt_asymm h

theorem resultLess_trans {a b c : TestResult} (h1 : resultLess a b = true)
    (h2 : resultLess b c = true) : resultLess a c = true := by
  unfold resultLess at h1 h2 ⊢
  by_cases hab : a.server.ip = b.server.ip
  · rw [if_neg (by simp [hab])] at h1
    by_cases hbc : b.server.ip = c.server.ip
    · rw [if_neg (by simp [hbc])] at h2
      rw [if_neg (by simp [hab, hbc])]
      exact strLt_trans h1 h2
    · rw [if_pos hbc] at h2
      have hac : a.server.ip ≠ c.server.ip := by rw [hab]; exact hbc
      rw [if_pos hac, hab]
      exact h2
  · rw [if_pos hab] at h1
    by_cases hbc : b.server.ip = c.server.ip
    · have h1c : strLt a.server.ip c.server.ip = true := hbc ▸ h1
      rw [if_pos (strLt_ne h1c)]
      exact h1c
    · rw [if_pos hbc] at h2
      have h1c := strLt_trans h1 h2
      rw [if_pos (strLt_ne h1c)]
      exact h1c

theorem resultLess_congr_left {a b x : TestResult} (hip : a.server.ip = b.server.ip)
    (hdom : a.domain = b.domain) : resultLess a x = resultLess b x := by
  unfold resultLess
  rw [hip, hdom]

theorem resultLess_congr_right {a b x : TestResult} (hip : a.server.ip = b.server.ip)
    (hdom : a.domain = b.domain) : resultLess x a = resultLess x b := by
  unfold resultLess
  rw [hip, hdom]

theorem resultLess_trichotomy (a b : TestResult) :
    resultLess a b = true ∨
      (a.server.ip = b.server.ip ∧ a.domain = b.domain) ∨ resultLess b a = true := by
  unfold resultLess
  by_cases hip : a.server.ip = b.server.ip
  · rcases strLt_trichotomy a.domain b.domain with h | h | h
    · exact Or.inl (by rw [if_neg (by simp [hip])]; exact h)
    · exact Or.inr (Or.inl ⟨hip, h⟩)
    · exact Or.inr (Or.inr (by rw [if_neg (by simp [hip])]; exact h))
  · rcases strLt_trichotomy a.server.ip b.server.ip with h | h | h
    · exact Or.inl (by rw [if_pos hip]; exact h)
    · exact absurd h hip
    · exact Or.inr (Or.inr (by rw [if_pos (Ne.symm hip)]; exact h))

instance : IsTotal TestResult resultLE :=
  ⟨fun a b => by
    unfold resultLE
    cases h : resultLess b a with
    | false => exact Or.inl rfl
    | true => exact Or.inr (resultLess_asymm h)⟩

instance : IsTrans TestResult resultLE :=
  ⟨fun a b c h1 h2 => by
    unfold resultLE at h1 h2 ⊢
    cases hca : resultLess c a with
    | false => rfl
    | true =>
      exfalso
      rcases resultLess_trichotomy c b with hcb | ⟨hip, hdom⟩ | hbc
      · rw [hcb] at h2
        exact Bool.noConfusion h2
      · rw [← resultLess_congr_left hip hdom, hca] at h1
        exact Bool.noConfusion h1
      · rw [resultLess_trans hbc hca] at h1
        exact Bool.noConfusion h1⟩

theorem sortResults_perm (l : List TestResult) : (sortResults l).Perm l :=
  List.perm_insertionSort resultLE l

theorem sortResults_sorted (l : List TestResult) : (sortResults l).Pairwise resultLE :=
  List.sorted_insertionSort resultLE l

theorem sortSliceOutput_sortResults (l : List TestResult) :
    sortSliceOutput l (sortResults l) :=
  ⟨(sortResults_perm l).symm, sortResults_sorted l⟩

/-! ### Projection equations for the embedded functions -/

theorem aggregate_results (l : List TestResult) :
    (aggregate l).results = sortResults l := rfl

theorem aggregate_summary (l : List TestResult) :
    (aggregate l).summary = calculateSummary (sortResults l) := rfl

theorem calculateSummary_totalTests (results : List TestResult) :
    (calculateSummary results).totalTests = results.length := rfl

theorem calculateSummary_successfulTests (results : List TestResult) :
    (calculateSummary results).successfulTests =
      (results.filter (fun r => r.success)).length := rfl

theorem calculateSummary_failedTests (results : List TestResult) :
    (calculateSummary results).failedTests =
      results.length - (results.filter (fun r => r.success)).length := rfl

theorem calculateSummary_successRate (results : List TestResult) :
    (calculateSummary results).successRate =
      (fdiv (results.filter (fun r => r.success)).length results.length).map
        (fun q => q * 100) := rfl

theorem calculateSummary_averageResponseTime (results : List TestResult) :
    (calculateSummary results).averageResponseTime =
      if 0 < (results.filter (fun r => r.success)).length then
        ((results.filter (fun r => r.success)).map (fun r => r.responseTime)).sum /
          (results.filter (fun r => r.success)).length
      else 0 := rfl

theorem calculateSummary_categoryStats (results : List TestResult) :
    (calculateSummary results).categoryStats =
      ((results.map (fun r => r.category)).dedup).map (fun category =>
        (category,
          { totalTests := (results.filter (fun r => r.category == category)).length
            successfulTests :=
              ((results.filter (fun r => r.category == category)).filter
                (fun r => r.success)).length
            failedTests :=
              (results.filter (fun r => r.category == category)).length -
                ((results.filter (fun r => r.category == category)).filter
                  (fun r => r.success)).length
            successRate :=
              (fdiv
                ((results.filter (fun r => r.category == category)).filter
                  (fun r => r.success)).length
                (results.filter (fun r => r.category == category)).length).map
                (fun q => q * 100) : CategoryStats })) := rfl

/-! ### Counting lemmas for the category partition -/

theorem filterCategory_length (results : List TestResult) (c : String) :
    (results.filter (fun r => r.category == c)).length =
      (results.map (fun r => r.category)).count c := by
  rw [← List.countP_eq_length_filter, List.count, List.countP_map]
  rfl

theorem sum_dedup_count (m : List String) :
    (m.dedup.map (fun c => m.count c)).sum = m.length := by
  have h := Multiset.toFinset_sum_count_eq (m : Multiset String)
  rw [Finset.sum, Multiset.toFinset] at h
  simp only [Multiset.coe_dedup, Multiset.map_coe, Multiset.sum_coe, Multiset.coe_card,
    Multiset.coe_count] at h
  exact h

/-! ### Job generation counts -/

theorem genJobs_length (servers : List DNSServer) (domains : List DomainCategory) :
    (genJobs servers domains).length = servers.length * domains.length := by
  simp [genJobs, List.length_flatMap, Function.comp_def]

theorem processAll_length (servers : List DNSServer) (domains : List DomainCategory)
    (oracle : DNSServer → String → ExchangeOutcome × ℕ) :
    (processAll servers domains oracle).length = servers.length * domains.length := by
  simp [processAll, genJobs_length]

/-- C1: for every completed run over `N` servers and `M` domains — whatever
order the worker pool delivered the per-job results in — the report's
result list has exactly `N * M` entries and the global summary's
total-tests count equals `N * M`. -/
theorem run_produces_N_times_M_results (servers : List DNSServer)
    (domains : List DomainCategory)
    (oracle : DNSServer → String → ExchangeOutcome × ℕ) (collected : List TestResult)
    (hperm : collected.Perm (processAll servers domains oracle)) :
    (aggregate collected).results.length = servers.length * domains.length ∧
    (aggregate collected).summary.totalTests = servers.length * domains.length := by
  have hlen : (aggregate collected).results.length = servers.length * domains.length := by
    rw [aggregate_results, (sortResults_perm collected).length_eq, hperm.length_eq,
      processAll_length]
  refine ⟨hlen, ?_⟩
  rw [aggregate_summary, calculateSummary_totalTests, ← aggregate_results]
  exact hlen

/-- C1 witness: a 1-server, 1-domain run has one result and total 1. -/
theorem run_produces_N_times_M_results_witness :
    (aggregate (processAll [{ ip := "1.1.1.1", description := "" }]
        [{ domain := "a.com", category := "General" }]
        (fun _ _ => (ExchangeOutcome.err "timeout", 5)))).results.length = 1 ∧
    (aggregate (processAll [{ ip := "1.1.1.1", description := "" }]
        [{ domain := "a.com", category := "General" }]
        (fun _ _ => (ExchangeOutcome.err "timeout", 5)))).summary.totalTests = 1 := by
  have h := run_produces_N_times_M_results [{ ip := "1.1.1.1", description := "" }]
    [{ domain := "a.com", category := "General" }]
    (fun _ _ => (ExchangeOutcome.err "timeout", 5)) _ (List.Perm.refl _)
  simpa using h

/-! ### C2: result ordering -/

/-- Stability on tied sort keys: for every key, the results carrying that
(server IP, domain) key appear in the output in the same relative order as
in the input. -/
def stableOnKeys (l out : List TestResult) : Prop :=
  ∀ ip dom,
    out.filter (fun r => r.server.ip == ip && r.domain == dom) =
      l.filter (fun r => r.server.ip == ip && r.domain == dom)

/-- Duplicate-job result that succeeded. -/
def rTieA : TestResult :=
  { server := { ip := "1.1.1.1", description := "Cloudflare" }, domain := "a.com",
    category := "General", success := true, responseTime := 5,
    ip := "93.184.216.34", error := "" }

/-- Duplicate-job result with the same (server IP, domain) key that
failed. -/
def rTieB : TestResult :=
  { server := { ip := "1.1.1.1", description := "Cloudflare" }, domain := "a.com",
    category := "General", success := false, responseTime := 7,
    ip := "", error := "timeout" }

/-- C2 counterexample: `sort.Slice` promises only a sorted permutation (it
is documented as not stable), and the reversed order of two key-tied
results satisfies that contract while violating stability, so the claim
that ties keep their original relative order does not hold of the code. -/
theorem sortSlice_not_stable_cex :
    sortSliceOutput [rTieA, rTieB] [rTieB, rTieA] ∧
      ¬ stableOnKeys [rTieA, rTieB] [rTieB, rTieA] := by
  constructor
  · exact ⟨by decide, by decide⟩
  · intro h
    have h2 := h "1.1.1.1" "a.com"
    rw [show ([rTieB, rTieA].filter
          (fun r => r.server.ip == "1.1.1.1" && r.domain == "a.com")) = [rTieB, rTieA]
        from by decide,
      show ([rTieA, rTieB].filter
          (fun r => r.server.ip == "1.1.1.1" && r.domain == "a.com")) = [rTieA, rTieB]
        from by decide] at h2
    exact absurd h2 (by decide)

theorem resultLE_imp {a b : TestResult} (h : resultLE a b) :
    strLt a.server.ip b.server.ip = true ∨
      (a.server.ip = b.server.ip ∧ strLt b.domain a.domain = false) := by
  unfold resultLE at h
  rcases resultLess_trichotomy a b with hab | ⟨hip, hdom⟩ | hba
  · unfold resultLess at hab
    by_cases hip : a.server.ip = b.server.ip
    · rw [if_neg (by simp [hip])] at hab
      exact Or.inr ⟨hip, strLt_asymm hab⟩
    · rw [if_pos hip] at hab
      exact Or.inl hab
  · refine Or.inr ⟨hip, ?_⟩
    rw [hdom]
    exact strLt_irrefl _
  · rw [hba] at h
    exact Bool.noConfusion h

/-- C2 amended: after aggregation the result list is a permutation of the
collected results that is sorted ascending by (server IP, domain): a
result with a strictly smaller server IP precedes one with a larger IP,
and results with equal server IP are ordered by domain ascending.  The
relative order of results tied on both keys is NOT specified (`sort.Slice`
is not stable); see `sortSlice_not_stable_cex`. -/
theorem aggregate_results_sorted (collected : List TestResult) :
    (aggregate collected).results.Pairwise (fun a b =>
      strLt a.server.ip b.server.ip = true ∨
        (a.server.ip = b.server.ip ∧ strLt b.domain a.domain = false)) ∧
    (aggregate collected).results.Perm collected := by
  rw [aggregate_results]
  exact ⟨(sortResults_sorted collected).imp (fun h => resultLE_imp h),
    sortResults_perm collected⟩

/-- C6: the per-category total-tests counts sum to the global total-tests
count, for every result multiset. -/
theorem categoryStats_total_sum (results : List TestResult) :
    ((calculateSummary results).categoryStats.map (fun p => p.2.totalTests)).sum =
      (calculateSummary results).totalTests := by
  rw [calculateSummary_categoryStats, calculateSummary_totalTests, List.map_map]
  simp only [Function.comp_def]
  rw [List.map_congr_left (fun c _ => filterCategory_length results c),
    sum_dedup_count, List.length_map]

/-- C7: the per-category stats map has an entry for a category exactly when
some result of that category was observed, and every entry counts at least
one test (so every per-category rate division has a divisor of at least
one). -/
theorem categoryStats_mem_iff (results : List TestResult) (c : String) :
    (c ∈ (calculateSummary results).categoryStats.map Prod.fst ↔
      c ∈ results.map (fun r => r.category)) ∧
    ∀ p ∈ (calculateSummary results).categoryStats, 1 ≤ p.2.totalTests := by
  rw [calculateSummary_categoryStats]
  constructor
  · rw [List.map_map]
    simp only [Function.comp_def]
    simp [List.mem_dedup]
  · intro p hp
    rw [List.mem_map] at hp
    obtain ⟨cat, hcat, rfl⟩ := hp
    have hmem : cat ∈ results.map (fun r => r.category) := List.mem_dedup.1 hcat
    obtain ⟨r, hr, hcr⟩ := List.mem_map.1 hmem
    have hfil : r ∈ results.filter (fun x => x.category == cat) :=
      List.mem_filter.2 ⟨hr, by simp [hcr]⟩
    simpa using List.length_pos_of_mem hfil

/-- C7 witness: with one observed "General" result the stats map has the
key "General" and its (unique) entry counts at least one test. -/
theorem categoryStats_mem_iff_witness :
    "General" ∈ (calculateSummary [rTieA]).categoryStats.map Prod.fst ∧
      1 ≤ ((calculateSummary [rTieA]).categoryStats.head!).2.totalTests := by
  have h := categoryStats_mem_iff [rTieA] "General"
  refine ⟨h.1.mpr (by simp [rTieA]), ?_⟩
  refine h.2 _ ?_
  have hne : (calculateSummary [rTieA]).categoryStats ≠ [] := by
    rw [calculateSummary_categoryStats]
    simp [rTieA]
  exact List.head!_mem_self hne

/-! ### C3: global success rate -/

/-- C3 counterexample: on an empty result multiset the code still computes
`successRate` by the division `float64(0)/float64(0)` — the divisor is the
zero total, so the division by zero is performed and yields NaN (`none`),
instead of the rate being omitted / the division never happening. -/
theorem successRate_divzero_cex :
    (calculateSummary []).totalTests = 0 ∧ (calculateSummary []).successRate = none :=
  ⟨rfl, rfl⟩

/-- C3 amended: the global success rate equals `successful / total * 100`
and lies in `[0, 100]` whenever `total > 0`; when `total = 0` the code
nevertheless performs the (float) division with zero divisor, producing
NaN (`none`) rather than omitting the computation. -/
theorem successRate_spec (results : List TestResult) :
    (0 < results.length →
      (calculateSummary results).successRate =
        some (((results.filter (fun r => r.success)).length : ℚ) /
          (results.length : ℚ) * 100) ∧
      ∀ q, (calculateSummary results).successRate = some q → 0 ≤ q ∧ q ≤ 100) ∧
    (results.length = 0 → (calculateSummary results).successRate = none) := by
  constructor
  · intro hpos
    have hne : results.length ≠ 0 := Nat.pos_iff_ne_zero.mp hpos
    have heq : (calculateSummary results).successRate =
        some (((results.filter (fun r => r.success)).length : ℚ) /
          (results.length : ℚ) * 100) := by
      rw [calculateSummary_successRate]
      simp [fdiv, hne]
    refine ⟨heq, ?_⟩
    intro q hq
    rw [heq] at hq
    have hq2 : ((results.filter (fun r => r.success)).length : ℚ) /
        (results.length : ℚ) * 100 = q := Option.some.inj hq
    have ht : (0 : ℚ) < (results.length : ℚ) := by exact_mod_cast hpos
    have hle : ((results.filter (fun r => r.success)).length : ℚ) ≤
        (results.length : ℚ) := by
      exact_mod_cast List.length_filter_le (fun r => r.success) results
    constructor
    · rw [← hq2]
      positivity
    · rw [← hq2]
      calc ((results.filter (fun r => r.success)).length : ℚ) /
            (results.length : ℚ) * 100
          ≤ 1 * 100 := by
            apply mul_le_mul_of_nonneg_right _ (by norm_num)
            exact (div_le_one ht).mpr hle
        _ = 100 := one_mul 100
  · intro h0
    rw [calculateSummary_successRate, h0]
    rfl

/-- C3 witness: one all-successful result gives rate 100. -/
theorem successRate_spec_witness :
    (calculateSummary [rTieA]).successRate = some 100 := by
  have h := (successRate_spec [rTieA]).1 (by decide)
  rw [h.1,
    show ([rTieA].filter (fun r => r.success)).length = 1 from by decide,
    show ([rTieA] : List TestResult).length = 1 from by decide]
  norm_num

/-! ### C8: average response time -/

/-- C8: the global average response time depends only on the successful
results (failed results contribute neither to the sum nor to the divisor),
is 0 when there are no successes, and otherwise is the integer (floor)
mean of the successful results' response times — `time.Duration` division
truncates. -/
theorem averageResponseTime_spec (results : List TestResult) :
    (calculateSummary results).averageResponseTime =
      (calculateSummary (results.filter (fun r => r.success))).averageResponseTime ∧
    ((results.filter (fun r => r.success)).length = 0 →
      (calculateSummary results).averageResponseTime = 0) ∧
    (0 < (results.filter (fun r => r.success)).length →
      ((calculateSummary results).averageResponseTime : ℤ) =
        ⌊(((((results.filter (fun r => r.success)).map
              (fun r => r.responseTime)).sum : ℕ) : ℚ)) /
          ((results.filter (fun r => r.success)).length : ℚ)⌋) := by
  have hff : (results.filter (fun r => r.success)).filter (fun r => r.success) =
      results.filter (fun r => r.success) := by
    rw [List.filter_filter]
    simp
  refine ⟨?_, ?_, ?_⟩
  · rw [calculateSummary_averageResponseTime, calculateSummary_averageResponseTime, hff]
  · intro h0
    rw [calculateSummary_averageResponseTime, h0]
    simp
  · intro hpos
    rw [calculateSummary_averageResponseTime, if_pos hpos,
      Rat.floor_natCast_div_natCast]
    exact Int.ofNat_tdiv _ _

/-- Successful probe result with latency 10, used by witnesses. -/
def rOkB : TestResult :=
  { server := { ip := "2.2.2.2", description := "" }, domain := "b.com",
    category := "General", success := true, responseTime := 10,
    ip := "2.3.4.5", error := "" }

/-- C8 witness: successes with latencies 5 and 10 average to 7 (truncated
mean of 7.5). -/
theorem averageResponseTime_spec_witness :
    (calculateSummary [rTieA, rOkB]).averageResponseTime = 7 := by
  have h := (averageResponseTime_spec [rTieA, rOkB]).2.2 (by decide)
  rw [show (([rTieA, rOkB].filter (fun r => r.success)).map
        (fun r => r.responseTime)).sum = 15 from by decide,
    show ([rTieA, rOkB].filter (fun r => r.success)).length = 2 from by decide,
    Rat.floor_natCast_div_natCast] at h
  exact_mod_cast h

/-! ### C4 and C10: the probe result contract -/

theorem firstA_mem : ∀ {l : List RR} {addr : String}, firstA l = some addr → RR.A addr ∈ l
  | [], _, h => by simp [firstA] at h
  | RR.A a :: rest, addr, h => by
    simp only [firstA, Option.some.injEq] at h
    rw [h]
    exact List.mem_cons_self _ _
  | RR.other :: rest, addr, h => by
    simp only [firstA] at h
    exact List.mem_cons_of_mem _ (firstA_mem h)

theorem firstA_none_iff : ∀ l : List RR, firstA l = none ↔ ∀ addr, RR.A addr ∉ l
  | [] => by simp [firstA]
  | RR.A a :: rest => by
    simp only [firstA]
    constructor
    · intro h
      exact Option.noConfusion h
    · intro h
      exact absurd (List.mem_cons_self _ _) (h a)
  | RR.other :: rest => by
    simp only [firstA, firstA_none_iff rest]
    constructor
    · intro h addr hmem
      rcases List.mem_cons.1 hmem with h2 | h2
      · exact RR.noConfusion h2
      · exact h addr h2
    · intro h addr hmem
      exact h addr (List.mem_cons_of_mem _ hmem)

theorem testDNS_failure_reason (server : DNSServer) (domain : String)
    (outcome : ExchangeOutcome) (rt : ℕ)
    (hmsg : ∀ msg, outcome = ExchangeOutcome.err msg → msg ≠ "")
    (hfail : (testDNS server domain outcome rt).success = false) :
    (testDNS server domain outcome rt).error ≠ "" := by
  cases outcome with
  | err msg =>
    have h := hmsg msg rfl
    simpa [testDNS] using h
  | ok response =>
    cases response with
    | none =>
      simp only [testDNS]
      decide
    | some answers =>
      by_cases hlen : answers.length = 0
      · simp only [testDNS, if_pos hlen]
        decide
      · cases hA : firstA answers with
        | some addr => simp [testDNS, hlen, hA] at hfail
        | none =>
          simp only [testDNS, if_neg hlen, hA]
          decide

/-- C4: the worker pool emits exactly one result per generated job (so a
failing probe never drops a result or aborts the pool — every job
contributes), and every failed probe's result carries a non-empty failure
reason (assuming the external exchange error descriptions are non-empty,
as `err.Error()` is). -/
theorem worker_emits_one_result_per_job (servers : List DNSServer)
    (domains : List DomainCategory)
    (oracle : DNSServer → String → ExchangeOutcome × ℕ)
    (hmsg : ∀ s d msg, (oracle s d).1 = ExchangeOutcome.err msg → msg ≠ "") :
    (processAll servers domains oracle).length = servers.length * domains.length ∧
    ∀ r ∈ processAll servers domains oracle, r.success = false → r.error ≠ "" := by
  refine ⟨processAll_length servers domains oracle, ?_⟩
  intro r hr hfail
  unfold processAll at hr
  obtain ⟨j, hj, rfl⟩ := List.mem_map.1 hr
  have hs : (processJob oracle j).success =
      (testDNS j.1 j.2.domain (oracle j.1 j.2.domain).1 (oracle j.1 j.2.domain).2).success := rfl
  have he : (processJob oracle j).error =
      (testDNS j.1 j.2.domain (oracle j.1 j.2.domain).1 (oracle j.1 j.2.domain).2).error := rfl
  rw [he]
  rw [hs] at hfail
  exact testDNS_failure_reason _ _ _ _ (fun msg hm => hmsg j.1 j.2.domain msg hm) hfail

/-- C4 witness: a 1-job run whose probe times out still yields exactly one
result, and that result carries the failure reason. -/
theorem worker_emits_one_result_per_job_witness :
    (processAll [{ ip := "9.9.9.9", description := "" }]
        [{ domain := "x.com", category := "Other" }]
        (fun _ _ => (ExchangeOutcome.err "read timeout", 3))).length = 1 ∧
    ((processAll [{ ip := "9.9.9.9", description := "" }]
        [{ domain := "x.com", category := "Other" }]
        (fun _ _ => (ExchangeOutcome.err "read timeout", 3))).head!).error ≠ "" := by
  have h := worker_emits_one_result_per_job [{ ip := "9.9.9.9", description := "" }]
    [{ domain := "x.com", category := "Other" }]
    (fun _ _ => (ExchangeOutcome.err "read timeout", 3))
    (by
      intro s d msg hm
      simp only at hm
      injection hm with h2
      rw [← h2]
      decide)
  refine ⟨by simpa using h.1, ?_⟩
  refine h.2 _ ?_ ?_
  · apply List.head!_mem_self
    simp [processAll, genJobs]
  · decide

/-- C10: a probe result's success flag is true exactly when the exchange
returned no error and the answer section holds at least one A record; on
success the resolved IP is the first A record's address and the error
field is empty, and on failure the resolved IP is empty and the error
field is non-empty (assuming a non-empty exchange error description). -/
theorem testDNS_success_iff (server : DNSServer) (domain : String)
    (outcome : ExchangeOutcome) (responseTime : ℕ)
    (hmsg : ∀ msg, outcome = ExchangeOutcome.err msg → msg ≠ "") :
    ((testDNS server domain outcome responseTime).success = true ↔
      (∃ resp, outcome = ExchangeOutcome.ok resp) ∧
        ∃ addr, RR.A addr ∈ exchangeAnswers outcome) ∧
    ((testDNS server domain outcome responseTime).success = true →
      (testDNS server domain outcome responseTime).ip =
          (firstA (exchangeAnswers outcome)).getD "" ∧
        (testDNS server domain outcome responseTime).error = "") ∧
    ((testDNS server domain outcome responseTime).success = false →
      (testDNS server domain outcome responseTime).ip = "" ∧
        (testDNS server domain outcome responseTime).error ≠ "") := by
  refine ⟨?_, ?_, ?_⟩
  · cases outcome with
    | err msg => simp [testDNS, exchangeAnswers]
    | ok response =>
      cases response with
      | none => simp [testDNS, exchangeAnswers]
      | some answers =>
        by_cases hlen : answers.length = 0
        · rw [List.length_eq_zero] at hlen
          subst hlen
          simp [testDNS, exchangeAnswers]
        · cases hA : firstA answers with
          | some addr =>
            simp only [testDNS, if_neg hlen, hA, exchangeAnswers]
            constructor
            · intro _
              exact ⟨⟨some answers, rfl⟩, addr, firstA_mem hA⟩
            · intro _
              trivial
          | none =>
            simp only [testDNS, if_neg hlen, hA, exchangeAnswers]
            constructor
            · intro h
              exact Bool.noConfusion h
            · rintro ⟨-, addr, hmem⟩
              exact absurd hmem ((firstA_none_iff answers).1 hA addr)
  · intro hsucc
    cases outcome with
    | err msg => simp [testDNS] at hsucc
    | ok response =>
      cases response with
      | none => simp [testDNS] at hsucc
      | some answers =>
        by_cases hlen : answers.length = 0
        · rw [List.length_eq_zero] at hlen
          subst hlen
          simp [testDNS] at hsucc
        · have hne : answers ≠ [] := fun he => hlen (by rw [he]; rfl)
          cases hA : firstA answers with
          | some addr =>
            simp only [testDNS, if_neg hlen, hA, exchangeAnswers]
            exact ⟨rfl, trivial⟩
          | none => simp [testDNS, hne, hA] at hsucc
  · intro hfail
    constructor
    · cases outcome with
      | err msg => rfl
      | ok response =>
        cases response with
        | none => rfl
        | some answers =>
          by_cases hlen : answers.length = 0
          · rw [List.length_eq_zero] at hlen
            subst hlen
            simp [testDNS]
          · have hne : answers ≠ [] := fun he => hlen (by rw [he]; rfl)
            cases hA : firstA answers with
            | some addr => simp [testDNS, hne, hA] at hfail
            | none => simp [testDNS, hne, hA]
    · exact testDNS_failure_reason server domain outcome responseTime hmsg hfail

/-- C10 witness: a response whose answer section is a non-A record
followed by an A record yields success with the first A record's
address. -/
theorem testDNS_success_iff_witness :
    (testDNS { ip := "8.8.8.8", description := "" } "ok.com"
        (ExchangeOutcome.ok (some [RR.other, RR.A "93.184.216.34"])) 12).success = true ∧
    (testDNS { ip := "8.8.8.8", description := "" } "ok.com"
        (ExchangeOutcome.ok (some [RR.other, RR.A "93.184.216.34"])) 12).ip =
      "93.184.216.34" ∧
    (testDNS { ip := "8.8.8.8", description := "" } "ok.com"
        (ExchangeOutcome.ok (some [RR.other, RR.A "93.184.216.34"])) 12).error = "" := by
  have h := testDNS_success_iff { ip := "8.8.8.8", description := "" } "ok.com"
    (ExchangeOutcome.ok (some [RR.other, RR.A "93.184.216.34"])) 12
    (fun msg hm => ExchangeOutcome.noConfusion hm)
  have hs : (testDNS { ip := "8.8.8.8", description := "" } "ok.com"
      (ExchangeOutcome.ok (some [RR.other, RR.A "93.184.216.34"])) 12).success = true := by
    decide
  refine ⟨hs, ?_, (h.2.1 hs).2⟩
  rw [(h.2.1 hs).1]
  decide

/-! ### C5 and C9: the progress monitor -/

/-- C5 counterexample: at a tick with zero total jobs the monitor computes
`progress = current/total` with the zero total as divisor — the division
by zero is performed, yielding NaN (`none`) — and renders "NaN", not a
100%-complete state. -/
theorem progress_zero_total_cex :
    (showProgressTick 0 0 500000000).percentage = none ∧
    (showProgressTick 0 0 500000000).percentage ≠ some 100 ∧
    (showProgressTick 0 0 500000000).percentStr = "NaN" := by
  refine ⟨rfl, ?_, rfl⟩
  intro h
  exact Option.noConfusion h

/-- C5 amended: when the total job count is zero (so the completion
counter is zero as well), the tick computation has no zero guard: it
divides `0/0`, `progress` and `percentage` are NaN (`none`), and the
rendered percentage is "NaN" rather than a 100%-complete display. -/
theorem progress_zero_total (elapsed : ℕ) :
    (showProgressTick 0 0 elapsed).progress = none ∧
    (showProgressTick 0 0 elapsed).percentage = none ∧
    (showProgressTick 0 0 elapsed).percentStr = "NaN" :=
  ⟨rfl, rfl, rfl⟩

/-- C9 counterexample: at a tick with no completed jobs the `eta` variable
keeps its zero value and the monitor still renders it through
`formatDuration`, displaying the concrete duration value "0.0s" — the ETA
is not withheld and no "unknown" marker exists in the render format. -/
theorem eta_rendered_at_zero_cex :
    (showProgressTick 0 5 1000000000).eta = 0 ∧
    (showProgressTick 0 5 1000000000).etaStr = "0.0s" := by
  exact ⟨rfl, by decide⟩

/-- C9 amended: at every tick with `completed > 0` the ETA equals
`(elapsed / completed) * (total - completed)` in truncating
`time.Duration` arithmetic; when `completed = 0` the ETA is not computed —
the zero value is rendered as "0.0s" instead of being withheld. -/
theorem eta_spec (current total elapsed : ℕ) (hct : current ≤ total) :
    (0 < current →
      (showProgressTick current total elapsed).eta =
        ((elapsed / current * (total - current) : ℕ) : ℤ)) ∧
    (current = 0 →
      (showProgressTick current total elapsed).eta = 0 ∧
      (showProgressTick current total elapsed).etaStr = "0.0s") := by
  constructor
  · intro hpos
    show (if 0 < current then
        Int.tdiv (elapsed : ℤ) (current : ℤ) * ((total : ℤ) - (current : ℤ)) else 0) = _
    rw [if_pos hpos]
    have htd : Int.tdiv (elapsed : ℤ) (current : ℤ) = ((elapsed / current : ℕ) : ℤ) := by
      exact_mod_cast Int.ofNat_tdiv elapsed current
    rw [htd, ← Nat.cast_sub hct, ← Nat.cast_mul]
  · intro h0
    subst h0
    constructor
    · rfl
    · show formatDuration (if 0 < 0 then
          Int.tdiv (elapsed : ℤ) ((0 : ℕ) : ℤ) * ((total : ℤ) - ((0 : ℕ) : ℤ)) else 0) = "0.0s"
      rw [if_neg (lt_irrefl 0)]
      decide

/-- C9 witness: 2 of 5 jobs done after 1s gives an ETA of
`(1s / 2) * 3 = 1.5s`. -/
theorem eta_spec_witness :
    (showProgressTick 2 5 1000000000).eta = 1500000000 := by
  have h := (eta_spec 2 5 1000000000 (by decide)).1 (by decide)
  rw [h]
  decide
